import Mathlib

/-!
Verification of the CarbonCode process-orchestration layer.

This file gives a shallow embedding of the compiler/runner module
(`electron/compiler.ts` and its legacy variant), the debugger adapter
(`electron/debugger.ts`) and the tab manager (`src/hooks/useFileManager.ts`),
and proves properties of these definitions.

A spawned child process is modelled by the list of `data` events its stdout
and stderr streams fire, in arrival order, together with how it terminates:
either a `close` event after `duration` milliseconds carrying an optional
exit code (`null` when the process was killed by a signal), or an `error`
event carrying a spawn-failure message.  Wall-clock timestamp fields
(`compileTime`, `executionTime`) and the literal temp-directory paths
(`tmpdir()` plus a random UUID) are environment-derived; paths are passed
in through the environment record and timing fields are not modelled.
-/

namespace CarbonCode

/-- One `data` event on a child process's stdout or stderr stream. -/
inductive ProcEvent where
  | out (s : String)
  | err (s : String)
deriving DecidableEq

/-- How a spawned child process's lifetime ends: a `close` event after
`duration` ms with an optional exit code (`none` = killed by signal),
or an `error` event (spawn failure) after the given chunks. -/
inductive ProcExec where
  | closes (chunks : List ProcEvent) (duration : Nat) (exitCode : Option Int)
  | errors (chunks : List ProcEvent) (msg : String)
deriving DecidableEq

/-- The stdout chunks of an event list, in arrival order. -/
def outChunks : List ProcEvent → List String
  | [] => []
  | .out s :: rest => s :: outChunks rest
  | .err _ :: rest => outChunks rest

/-- The stderr chunks of an event list, in arrival order. -/
def errChunks : List ProcEvent → List String
  | [] => []
  | .out _ :: rest => errChunks rest
  | .err s :: rest => s :: errChunks rest

/-- Concatenation of a list of strings. -/
def joinAll : List String → String
  | [] => ""
  | s :: rest => s ++ joinAll rest

/-- One step of the `stdout += data` / `stderr += data` event handlers
(compiler.ts lines 371-377, 238-244; part_001 lines 231-237). -/
def accStep (acc : String × String) (e : ProcEvent) : String × String :=
  match e with
  | .out s => (acc.1 ++ s, acc.2)
  | .err s => (acc.1, acc.2 ++ s)

/-- The accumulated (stdout, stderr) after all data events have fired. -/
def accumulate (chunks : List ProcEvent) : String × String :=
  chunks.foldl accStep ("", "")

/-- JavaScript's `a || b` on strings: the empty string is falsy. -/
def jsOr (s fallback : String) : String := if s = "" then fallback else s

/-- Result shape of `runCompilationProcess` (compiler.ts 344-354). -/
structure RunResultC where
  success : Bool
  stdout : String
  stderr : String
  exitCode : Option Int
deriving DecidableEq

/-- `runCompilationProcess` (compiler.ts 344-399): spawn, accumulate the
stream chunks, arm a `setTimeout(kill, timeout)`; on `close` resolve with
`success: code === 0`; a kill by the timer makes `close` fire with a `null`
code.  On `error` resolve with `stderr` replaced by the error message and
exit code 1. -/
def runCompilationProcess (e : ProcExec) (timeout : Nat) : RunResultC :=
  match e with
  | .closes chunks d code =>
    let a := accumulate chunks
    if d ≤ timeout then
      { success := decide (code = some 0), stdout := a.1, stderr := a.2, exitCode := code }
    else
      { success := false, stdout := a.1, stderr := a.2, exitCode := none }
  | .errors chunks msg =>
    let a := accumulate chunks
    { success := false, stdout := a.1, stderr := msg, exitCode := some 1 }

/-- Whether the `setTimeout` timer of `runCompilationProcess` fires and kills
the process (the process has not closed within `timeout` ms). -/
def killedByTimer (e : ProcExec) (timeout : Nat) : Bool :=
  match e with
  | .closes _ d _ => timeout < d
  | .errors _ _ => false

/-- Result shape of the legacy `runProcess` (part_001 lines 194-205). -/
structure RunResultT where
  success : Bool
  stdout : String
  stderr : String
  exitCode : Option Int
  timedOut : Bool
deriving DecidableEq

/-- Legacy `runProcess` (part_001 lines 194-263): like
`runCompilationProcess` but records `timedOut` when the timer killed the
process, and resolves the `error` event with a `null` exit code. -/
def runProcess (e : ProcExec) (timeout : Nat) : RunResultT :=
  match e with
  | .closes chunks d code =>
    let a := accumulate chunks
    if d ≤ timeout then
      { success := decide (code = some 0), stdout := a.1, stderr := a.2,
        exitCode := code, timedOut := false }
    else
      { success := false, stdout := a.1, stderr := a.2, exitCode := none, timedOut := true }
  | .errors chunks msg =>
    let a := accumulate chunks
    { success := false, stdout := a.1, stderr := msg, exitCode := none, timedOut := false }

/-- What the `compileAndRun` caller of `startInteractiveProcess` observes:
accumulated stdout and stderr and the code passed to the exit callback. -/
structure InteractiveOutcome where
  stdout : String
  stderr : String
  exitCode : Int
deriving DecidableEq

/-- `startInteractiveProcess` (compiler.ts 219-268) as observed through its
callbacks: no timer is armed, so the process always runs to its natural
termination; on `close` the exit callback receives `code || 0` (a `null`
code becomes 0); on `error` the stderr callback receives a
`Spawn Error:` message and the exit callback receives 1. -/
def startInteractiveProcess (e : ProcExec) : InteractiveOutcome :=
  match e with
  | .closes chunks _ code =>
    let a := accumulate chunks
    { stdout := a.1, stderr := a.2, exitCode := code.getD 0 }
  | .errors chunks msg =>
    let a := accumulate chunks
    { stdout := a.1, stderr := a.2 ++ "Spawn Error: " ++ msg, exitCode := 1 }

/-- `startInteractiveProcess` arms no `setTimeout`; no process started
through it is ever killed by a timer (compiler.ts 219-268 contains no
timer and no kill). -/
def interactiveKilledByTimer (_e : ProcExec) : Bool := false

/-- Outcome of the `mkdirSync`/`writeFileSync` setup inside the `try` block
of `compileCode`: either both succeed or one raises with a message. -/
inductive SetupOutcome where
  | ok
  | throws (m : String)
deriving DecidableEq

/-- Environment a `compileCode` call runs in: whether `detectCompiler`
found a compiler, how the filesystem setup behaves, how the spawned
compiler process behaves, whether the executable file exists after a
successful compile, and the environment-derived paths. -/
structure CompileEnv where
  compilerFound : Bool
  setup : SetupOutcome
  compileExec : ProcExec
  exeCreated : Bool
  tempDirPath : String
  exeExtension : String
deriving DecidableEq

/-- `CompileResult` (compiler.ts 96-102), without the wall-clock
`compileTime` field. -/
structure CompileResult where
  success : Bool
  error : Option String
  executablePath : Option String
  tempDir : Option String
deriving DecidableEq

/-- A `compileCode` call together with its side effects: whether the
temporary directory still exists when the call returns, and how many times
a compiler process was spawned. -/
structure CompileOutcome where
  result : CompileResult
  tempDirRemains : Bool
  compilerRuns : Nat
deriving DecidableEq

/-- The no-compiler-found message of `compileCode` (compiler.ts 113). -/
def noCompilerMsg : String :=
  "❌ No C++ compiler found!\n\nPlease install a C++ compiler:\n• Windows: Install MinGW-w64 or Visual Studio Build Tools\n• macOS: Install Xcode Command Line Tools (xcode-select --install)\n• Linux: Install g++ (sudo apt install g++ or equivalent)\n\nMake sure the compiler is in your system PATH."

/-- `compileCode` (compiler.ts 107-214).  Returns early when no compiler is
found (before the temp directory is created).  Otherwise creates the temp
directory, writes the source, and spawns the compiler with a 30000 ms
timeout.  On compiler failure the error is
`🔧 Compilation Error:\n\n` + (stderr || stdout) and the temp directory is
removed; if no executable was produced the temp directory is removed; on an
unexpected exception the temp directory is removed; only on success are the
executable path and temp directory returned (and the directory kept). -/
def compileCode (env : CompileEnv) : CompileOutcome :=
  if env.compilerFound = false then
    { result := { success := false, error := some noCompilerMsg,
                  executablePath := none, tempDir := none },
      tempDirRemains := false, compilerRuns := 0 }
  else
    match env.setup with
    | .throws m =>
      { result := { success := false, error := some ("❌ Unexpected error: " ++ m),
                    executablePath := none, tempDir := none },
        tempDirRemains := false, compilerRuns := 0 }
    | .ok =>
      let r := runCompilationProcess env.compileExec 30000
      if r.success = false then
        { result := { success := false,
                      error := some ("🔧 Compilation Error:\n\n" ++ jsOr r.stderr r.stdout),
                      executablePath := none, tempDir := none },
          tempDirRemains := false, compilerRuns := 1 }
      else if env.exeCreated = false then
        { result := { success := false,
                      error := some "❌ Compilation failed: Executable not created",
                      executablePath := none, tempDir := none },
          tempDirRemains := false, compilerRuns := 1 }
      else
        { result := { success := true, error := none,
                      executablePath := some (env.tempDirPath ++ "/main" ++ env.exeExtension),
                      tempDir := some env.tempDirPath },
          tempDirRemains := true, compilerRuns := 1 }

/-- `CompilationResult` (compiler.ts 8-14), without the wall-clock timing
fields. -/
structure CompilationResult where
  success : Bool
  output : String
  error : String
deriving DecidableEq

/-- A `compileAndRun` call together with how many compiler processes and
how many user-program processes it spawned. -/
structure RunOutcome where
  result : CompilationResult
  compilerRuns : Nat
  programRuns : Nat
deriving DecidableEq

/-- `compileAndRun` (compiler.ts 300-339): compile once via `compileCode`;
on any compile failure return immediately with that error (or the fallback
text).  Otherwise run the executable once through
`startInteractiveProcess`, report `success: code === 0 || !!stdout`, the
accumulated stdout as output, and the error as the accumulated stderr
wrapped in `⚠️ Runtime Error:` (or an exit-code message when the exit code
is non-zero and both streams are empty). -/
def compileAndRun (env : CompileEnv) (runExec : ProcExec) : RunOutcome :=
  let c := compileCode env
  if c.result.success = false ∨ c.result.executablePath = none ∨ c.result.tempDir = none then
    { result := { success := false, output := "",
                  error := jsOr (c.result.error.getD "") "Compilation failed" },
      compilerRuns := c.compilerRuns, programRuns := 0 }
  else
    let io := startInteractiveProcess runExec
    let error0 := if io.exitCode ≠ 0 ∧ io.stdout = "" ∧ io.stderr = "" then
                    "⚠️ Program exited with code " ++ toString io.exitCode
                  else io.stderr
    { result := { success := decide (io.exitCode = 0) || decide (io.stdout ≠ ""),
                  output := io.stdout,
                  error := if error0 ≠ "" then "⚠️ Runtime Error:\n\n" ++ error0 else "" },
      compilerRuns := c.compilerRuns, programRuns := 1 }

/-- Environment of the legacy `compileAndRun` (part_001 lines 64-189):
whether a compiler was detected, how the compiler process behaves, and
whether the executable exists after a successful compile.  (part_001 has
no `catch` clause: filesystem exceptions propagate to the caller and are
not modelled.) -/
structure LegacyEnv where
  compilerFound : Bool
  compileExec : ProcExec
  exeCreated : Bool
deriving DecidableEq

/-- The timeout message of the legacy run step (part_001 line 149). -/
def timeoutMsg : String :=
  "⏱️ Execution timed out (10 seconds limit)\n\nYour program may have an infinite loop."

/-- JavaScript template interpolation of a nullable exit code. -/
def optIntStr : Option Int → String
  | some n => toString n
  | none => "null"

/-- Legacy `compileAndRun` (part_001 lines 64-189): compile with a 30000 ms
timeout, then run the executable with a 10000 ms timeout via `runProcess`.
A timed-out run is reported unsuccessful with the timeout message;
otherwise `success: exitCode === 0 || !!stdout` with the same error
decoration as the current implementation. -/
def compileAndRunLegacy (env : LegacyEnv) (runExec : ProcExec) : CompilationResult :=
  if env.compilerFound = false then
    { success := false, output := "", error := noCompilerMsg }
  else
    let cr := runProcess env.compileExec 30000
    if cr.success = false then
      { success := false, output := "",
        error := "🔧 Compilation Error:\n\n" ++ jsOr cr.stderr cr.stdout }
    else if env.exeCreated = false then
      { success := false, output := "", error := "❌ Compilation failed: Executable not created" }
    else
      let rr := runProcess runExec 10000
      if rr.success = false ∧ rr.timedOut = true then
        { success := false, output := rr.stdout, error := timeoutMsg }
      else
        let error0 := if rr.exitCode ≠ some 0 ∧ rr.stdout = "" ∧ rr.stderr = "" then
                        "⚠️ Program exited with code " ++ optIntStr rr.exitCode
                      else rr.stderr
        { success := decide (rr.exitCode = some 0) || decide (rr.stdout ≠ ""),
          output := rr.stdout,
          error := if error0 ≠ "" then "⚠️ Runtime Error:\n\n" ++ error0 else "" }

/-- The module-level process-tracking state of compiler.ts: the nullable
`currentProcess` reference (line 17) and the set of child processes of this
module that are currently alive, identified by pid. -/
structure ProcState where
  tracked : Option Nat
  live : List Nat
deriving DecidableEq

/-- Operations on the module-level process state:
`startInteractive pid` spawns a fresh process and assigns it to
`currentProcess` (line 236, with no kill of any previous process);
`closeEvent`/`errorEvent pid` are the handlers of a live process firing,
which null out `currentProcess` (lines 247, 263); `killCurrent` is
`killProcess` sending SIGTERM (line 290), which terminates nothing
synchronously. -/
inductive ProcOp where
  | startInteractive (pid : Nat)
  | closeEvent (pid : Nat)
  | errorEvent (pid : Nat)
  | killCurrent
deriving DecidableEq

/-- Initial module state: no process spawned yet. -/
def initState : ProcState := { tracked := none, live := [] }

/-- One transition of the module-level process state. -/
def step (s : ProcState) (op : ProcOp) : ProcState :=
  match op with
  | .startInteractive pid => { tracked := some pid, live := pid :: s.live }
  | .closeEvent pid =>
    if pid ∈ s.live then { tracked := none, live := s.live.erase pid } else s
  | .errorEvent pid =>
    if pid ∈ s.live then { tracked := none, live := s.live.erase pid } else s
  | .killCurrent => s

/-- The states reachable by a sequence of operations from the initial
state. -/
def runOps (ops : List ProcOp) : ProcState := ops.foldl step initState

/-- Debugger status (debugger.ts 20). -/
inductive DebugStatus where
  | idle
  | running
  | stopped
  | exited
deriving DecidableEq

/-- `Breakpoint` (debugger.ts 7-11). -/
structure Breakpoint where
  id : Nat
  file : String
  line : Nat
deriving DecidableEq

/-- `Variable` (debugger.ts 13-17). -/
structure Variable where
  name : String
  value : String
  type : String
deriving DecidableEq

/-- The state of `DebuggerService` relevant to the stepping operations:
whether `gdbProcess` is non-null, and the `DebugState` fields. -/
structure DbgState where
  hasProcess : Bool
  status : DebugStatus
  currentFile : Option String
  currentLine : Option Nat
  breakpoints : List Breakpoint
  locals : List Variable
deriving DecidableEq

/-- `stepOver` (debugger.ts 150-155): guarded on a live process and status
`stopped`; sets status to `running` and sends `-exec-next`.  The returned
list is the machine-interface commands written to the debugger's stdin. -/
def stepOver (s : DbgState) : DbgState × List String :=
  if s.hasProcess = true ∧ s.status = .stopped then
    ({ s with status := .running }, ["-exec-next"])
  else (s, [])

/-- `stepInto` (debugger.ts 157-162): same guard, sends `-exec-step`. -/
def stepInto (s : DbgState) : DbgState × List String :=
  if s.hasProcess = true ∧ s.status = .stopped then
    ({ s with status := .running }, ["-exec-step"])
  else (s, [])

/-- `stepOut` (debugger.ts 164-169): same guard, sends `-exec-finish`. -/
def stepOut (s : DbgState) : DbgState × List String :=
  if s.hasProcess = true ∧ s.status = .stopped then
    ({ s with status := .running }, ["-exec-finish"])
  else (s, [])

/-- `continue` (debugger.ts 171-176): same guard, sends `-exec-continue`. -/
def continueCmd (s : DbgState) : DbgState × List String :=
  if s.hasProcess = true ∧ s.status = .stopped then
    ({ s with status := .running }, ["-exec-continue"])
  else (s, [])

/-- Strip an exact literal from the front of a character list; `some rest`
exactly when the list starts with the literal. -/
def stripLit : List Char → List Char → Option (List Char)
  | [], cs => some cs
  | _ :: _, [] => none
  | p :: ps, c :: cs => if c = p then stripLit ps cs else none

/-- Leftmost occurrence of a literal: the remainder after the first
occurrence of `pat`, scanning left to right (the JS regex engine's leftmost
match rule). -/
def findLit (pat : List Char) : List Char → Option (List Char)
  | [] => stripLit pat []
  | c :: cs =>
    match stripLit pat (c :: cs) with
    | some r => some r
    | none => findLit pat cs

/-- Whether `pat` occurs anywhere in the list. -/
def hasLit (pat : List Char) : List Char → Bool
  | [] => (stripLit pat []).isSome
  | c :: cs => (stripLit pat (c :: cs)).isSome || hasLit pat cs

/-- The characters before the first occurrence of `t`, or `none` when `t`
does not occur: the lazy `(.*?)]` part of the first-stage regex. -/
def upToChar (t : Char) : List Char → Option (List Char)
  | [] => none
  | c :: cs => if c = t then some [] else (upToChar t cs).map (c :: ·)

/-- Greedily read a `[^"]*` field: the characters before the first `"`,
together with the remainder (starting at the quote, if any). -/
def readField : List Char → List Char × List Char
  | [] => ([], [])
  | c :: cs =>
    if c = '"' then ([], c :: cs)
    else
      let p := readField cs
      (c :: p.1, p.2)

/-- The literal `{name="` (the var pattern's opening). -/
def nameOpenL : List Char := ['\x7b', 'n', 'a', 'm', 'e', '=', '"']

/-- The literal `",value="`. -/
def valueSepL : List Char := ['"', ',', 'v', 'a', 'l', 'u', 'e', '=', '"']

/-- The literal `",type="`. -/
def typeSepL : List Char := ['"', ',', 't', 'y', 'p', 'e', '=', '"']

/-- The literal `"}` closing a var group. -/
def closeL : List Char := ['"', '\x7d']

/-- The literal `locals=[` of the first-stage regex. -/
def localsOpenL : List Char := ['l', 'o', 'c', 'a', 'l', 's', '=', '[']

/-- One attempted match of the var pattern
`\{name="([^"]+)",value="([^"]*)"(?:,type="([^"]*)")?\}` at the head of the
list: the name needs at least one character; after the value's closing
quote the optional `,type="…"` group is tried first and on failure the
engine backtracks to requiring `}` directly; an absent or empty type
capture yields `unknown` (the JS `varMatch[3] || 'unknown'`). -/
def matchVar (cs : List Char) : Option (Variable × List Char) :=
  match stripLit nameOpenL cs with
  | none => none
  | some cs1 =>
    let pn := readField cs1
    if pn.1 = [] then none
    else
      match stripLit valueSepL pn.2 with
      | none => none
      | some cs3 =>
        let pv := readField cs3
        match stripLit typeSepL pv.2 with
        | some cs5 =>
          let pt := readField cs5
          match stripLit closeL pt.2 with
          | some cs7 =>
            some ({ name := ⟨pn.1⟩, value := ⟨pv.1⟩, type := jsOr ⟨pt.1⟩ "unknown" }, cs7)
          | none =>
            match stripLit closeL pv.2 with
            | some cs5b =>
              some ({ name := ⟨pn.1⟩, value := ⟨pv.1⟩, type := "unknown" }, cs5b)
            | none => none
        | none =>
          match stripLit closeL pv.2 with
          | some cs5b =>
            some ({ name := ⟨pn.1⟩, value := ⟨pv.1⟩, type := "unknown" }, cs5b)
          | none => none

/-- Fuelled scan for successive non-overlapping matches of the var pattern,
left to right: the semantics of repeated `varPattern.exec` with the `g`
flag (debugger.ts 187-195).  Each step consumes at least one character, so
`length` fuel suffices. -/
def scanVarsFuel : Nat → List Char → List Variable
  | 0, _ => []
  | fuel + 1, cs =>
    match matchVar cs with
    | some (v, rest) => v :: scanVarsFuel fuel rest
    | none =>
      match cs with
      | [] => []
      | _ :: cs2 => scanVarsFuel fuel cs2

/-- All matches of the var pattern, in textual order. -/
def scanVars (cs : List Char) : List Variable := scanVarsFuel cs.length cs

/-- The parsing body of `getLocals` (debugger.ts 184-196): find the first
`locals=[` in the response, lazily capture up to the next `]`, then collect
every var-pattern match inside the capture. -/
def parseLocalsResponse (response : String) : List Variable :=
  match findLit localsOpenL response.data with
  | none => []
  | some rest =>
    match upToChar ']' rest with
    | none => []
    | some content => scanVars content

/-- `getLocals` (debugger.ts 178-200): empty when there is no debugger
process or the status is not `stopped`; otherwise the parse of the
machine-interface response to `-stack-list-locals --all-values`. -/
def getLocals (hasProcess : Bool) (status : DebugStatus) (response : String) : List Variable :=
  if hasProcess = true ∧ status = .stopped then parseLocalsResponse response else []

/-- A well-formed entry of a machine-interface `locals=[...]` list. -/
structure LocalEntry where
  name : String
  value : String
  vtype : Option String
deriving DecidableEq

/-- The serialized text of one entry: `{name="…",value="…"}` or
`{name="…",value="…",type="…"}`. -/
def entryChars (e : LocalEntry) : List Char :=
  nameOpenL ++ e.name.data ++ valueSepL ++ e.value.data ++
    (match e.vtype with
     | none => closeL
     | some t => typeSepL ++ t.data ++ closeL)

/-- The `Variable` the spec expects for an entry: captured name and value,
and the captured type or `unknown` when the type field is absent. -/
def entryVar (e : LocalEntry) : Variable :=
  { name := e.name, value := e.value, type := e.vtype.getD "unknown" }

/-- Well-formedness of an entry: non-empty name, no quote and no `]` in any
field, and a present type field is non-empty. -/
def entryOk (e : LocalEntry) : Prop :=
  e.name.data ≠ [] ∧
  (∀ c ∈ e.name.data, c ≠ '"' ∧ c ≠ ']') ∧
  (∀ c ∈ e.value.data, c ≠ '"' ∧ c ≠ ']') ∧
  (∀ t ∈ e.vtype.toList, t.data ≠ [] ∧ ∀ c ∈ t.data, c ≠ '"' ∧ c ≠ ']')

instance (e : LocalEntry) : Decidable (entryOk e) := by
  unfold entryOk; infer_instance

/-- Comma-separated join of serialized entries (the body between
`locals=[` and `]`). -/
def joinComma : List (List Char) → List Char
  | [] => []
  | [x] => x
  | x :: y :: rest => x ++ ',' :: joinComma (y :: rest)

/-- The body text of a `locals=[...]` list for the given entries. -/
def bodyChars (entries : List LocalEntry) : List Char :=
  joinComma (entries.map entryChars)

/-- `FileTab` (components/TabBar, as used by useFileManager.ts). -/
structure FileTab where
  id : String
  fileName : String
  filePath : Option String
  content : String
  isDirty : Bool
deriving DecidableEq

/-- `closeTab` (useFileManager.ts 119-136): filter out the tab with the
given id; when the closed tab was active and tabs remain, the new active
tab is the remaining tab at `min(closedIndex, newTabs.length - 1)` where
`closedIndex` is the closed tab's index in the original list; when no tabs
remain the active id becomes `null`; otherwise the active id is
unchanged. -/
def closeTab (tabs : List FileTab) (activeTabId : Option String) (tabId : String) :
    List FileTab × Option String :=
  let newTabs := tabs.filter (fun t => !(t.id == tabId))
  if activeTabId = some tabId then
    if 0 < newTabs.length then
      let closedIndex := tabs.findIdx (fun t => t.id == tabId)
      let newActiveIndex := min closedIndex (newTabs.length - 1)
      (newTabs, (newTabs[newActiveIndex]?).map FileTab.id)
    else
      (newTabs, none)
  else
    (newTabs, activeTabId)

/-! ## Helper lemmas -/

theorem string_mk_append (a b : List Char) : String.mk a ++ String.mk b = String.mk (a ++ b) :=
  rfl

theorem sappend_assoc (a b c : String) : a ++ b ++ c = a ++ (b ++ c) := by
  cases a; cases b; cases c
  simp only [string_mk_append, List.append_assoc]

theorem empty_sappend (a : String) : "" ++ a = a := by
  cases a; rfl

theorem accStep_foldl (chunks : List ProcEvent) :
    ∀ a b : String,
      chunks.foldl accStep (a, b) =
        (a ++ joinAll (outChunks chunks), b ++ joinAll (errChunks chunks)) := by
  induction chunks with
  | nil => intro a b; simp [joinAll, outChunks, errChunks]
  | cons e rest ih =>
    intro a b
    cases e with
    | out s =>
      simp only [List.foldl_cons, accStep, outChunks, errChunks, joinAll, ih, sappend_assoc]
    | err s =>
      simp only [List.foldl_cons, accStep, outChunks, errChunks, joinAll, ih, sappend_assoc]

theorem accumulate_spec (chunks : List ProcEvent) :
    accumulate chunks = (joinAll (outChunks chunks), joinAll (errChunks chunks)) := by
  simp [accumulate, accStep_foldl, empty_sappend]

/-! ## Claim C3 -/

/-- Claim C3: for every spawned process that runs to its `close` event, the
output captured and returned is the concatenation, in arrival order, of all
stdout data chunks, and the captured error text is the concatenation of all
stderr chunks — for the compile-step runner, the legacy runner and the
interactive runner alike, whatever the timeout and exit code. -/
theorem C3_output_is_chunk_concatenation (chunks : List ProcEvent) (d : Nat)
    (code : Option Int) (t : Nat) :
    (runCompilationProcess (.closes chunks d code) t).stdout = joinAll (outChunks chunks) ∧
    (runCompilationProcess (.closes chunks d code) t).stderr = joinAll (errChunks chunks) ∧
    (runProcess (.closes chunks d code) t).stdout = joinAll (outChunks chunks) ∧
    (runProcess (.closes chunks d code) t).stderr = joinAll (errChunks chunks) ∧
    (startInteractiveProcess (.closes chunks d code)).stdout = joinAll (outChunks chunks) ∧
    (startInteractiveProcess (.closes chunks d code)).stderr = joinAll (errChunks chunks) := by
  refine ⟨?_, ?_, ?_, ?_, ?_, ?_⟩ <;>
    simp only [runCompilationProcess, runProcess, startInteractiveProcess, accumulate_spec] <;>
    split <;> rfl

/-! ## Claim C2 -/

theorem step_tracked_live (s : ProcState) (op : ProcOp)
    (h : ∀ p, s.tracked = some p → p ∈ s.live) :
    ∀ p, (step s op).tracked = some p → p ∈ (step s op).live := by
  intro p hp
  cases op with
  | startInteractive pid =>
    simp only [step] at hp ⊢
    simp_all
  | closeEvent pid =>
    simp only [step] at hp ⊢
    split at hp <;> simp_all
  | errorEvent pid =>
    simp only [step] at hp ⊢
    split at hp <;> simp_all
  | killCurrent =>
    simpa [step] using h p hp

theorem foldl_step_tracked_live (ops : List ProcOp) :
    ∀ s : ProcState, (∀ p, s.tracked = some p → p ∈ s.live) →
      ∀ p, (ops.foldl step s).tracked = some p → p ∈ (ops.foldl step s).live := by
  induction ops with
  | nil => intro s h; exact h
  | cons op rest ih =>
    intro s h
    exact ih (step s op) (step_tracked_live s op h)

/-- Claim C2 counterexample: starting a second interactive process while
the first is still live (two `startInteractive` operations with no
intervening `close`) leaves the first process running but no longer
tracked, so a new operation does leave a previously tracked live process
untracked and running concurrently. -/
theorem C2_counterexample :
    (step (step initState (.startInteractive 1)) (.startInteractive 2)).tracked ≠ some 1 ∧
    1 ∈ (step (step initState (.startInteractive 1)) (.startInteractive 2)).live ∧
    (step initState (.startInteractive 1)).tracked = some 1 ∧
    1 ∈ (step initState (.startInteractive 1)).live := by
  decide

/-- Claim C2 (amended): the module-level `currentProcess` handle tracks at
most one spawned process — it is a single nullable reference and in every
reachable state the process it tracks is live — but starting a new
interactive process assigns the handle to the fresh process and leaves any
previously tracked live process running untracked. -/
theorem C2_single_tracked_process (ops : List ProcOp) :
    (∀ p, (runOps ops).tracked = some p → p ∈ (runOps ops).live) ∧
    (∀ (s : ProcState) (pid : Nat),
      (step s (.startInteractive pid)).tracked = some pid ∧
      (step s (.startInteractive pid)).live = pid :: s.live) := by
  constructor
  · exact foldl_step_tracked_live ops initState (by simp [initState])
  · intro s pid
    exact ⟨rfl, rfl⟩

/-- Claim C2 witness: the amended theorem at a concrete reachable state. -/
theorem C2_witness :
    2 ∈ (runOps [.startInteractive 1, .closeEvent 1, .startInteractive 2]).live ∧
    (step initState (.startInteractive 7)).tracked = some 7 := by
  refine ⟨?_, ((C2_single_tracked_process []).2 initState 7).1⟩
  exact (C2_single_tracked_process [.startInteractive 1, .closeEvent 1, .startInteractive 2]).1
    2 (by decide)

/-! ## Claim C6 -/

/-- Claim C6: each stepping operation of the debugger adapter, when a
debugger process exists and the status is `stopped`, sends exactly its
machine-interface command (`-exec-next`, `-exec-step`, `-exec-finish`,
`-exec-continue`) and transitions the status to `running`; under every
other precondition it sends nothing and leaves the debug state
unchanged. -/
theorem C6_stepping_operations (s : DbgState) :
    (s.hasProcess = true ∧ s.status = .stopped →
      stepOver s = ({ s with status := .running }, ["-exec-next"]) ∧
      stepInto s = ({ s with status := .running }, ["-exec-step"]) ∧
      stepOut s = ({ s with status := .running }, ["-exec-finish"]) ∧
      continueCmd s = ({ s with status := .running }, ["-exec-continue"])) ∧
    (¬(s.hasProcess = true ∧ s.status = .stopped) →
      stepOver s = (s, []) ∧ stepInto s = (s, []) ∧
      stepOut s = (s, []) ∧ continueCmd s = (s, [])) := by
  constructor <;> intro h <;>
    simp [stepOver, stepInto, stepOut, continueCmd, h]

/-- Claim C6 witness: the theorem at a concrete stopped state and at a
concrete running state. -/
theorem C6_witness :
    stepOver ⟨true, .stopped, none, none, [], []⟩ =
      (⟨true, .running, none, none, [], []⟩, ["-exec-next"]) ∧
    continueCmd ⟨true, .running, none, none, [], []⟩ =
      (⟨true, .running, none, none, [], []⟩, []) := by
  exact ⟨((C6_stepping_operations ⟨true, .stopped, none, none, [], []⟩).1
            ⟨rfl, rfl⟩).1,
        (((C6_stepping_operations ⟨true, .running, none, none, [], []⟩).2
            (by simp)).2.2.2)⟩

/-! ## Compiler helper lemmas -/

theorem compileCode_runs_le_one (env : CompileEnv) : (compileCode env).compilerRuns ≤ 1 := by
  simp only [compileCode]
  split
  · simp
  · split
    · simp
    · split
      · simp
      · split <;> simp

theorem compileCode_success_fields (env : CompileEnv) :
    (compileCode env).result.success = true →
    (compileCode env).result.executablePath =
      some (env.tempDirPath ++ "/main" ++ env.exeExtension) ∧
    (compileCode env).result.tempDir = some env.tempDirPath := by
  simp only [compileCode]
  split
  · simp
  · split
    · simp
    · split
      · simp
      · split <;> simp

/-! ## Claim C9 -/

/-- Claim C9: whenever `compileCode` returns `success: false` — no compiler
found, compiler error, executable not created, or unexpected exception —
the temporary directory it created for that compilation has been removed
(or was never created); only on success is the temporary directory
retained, together with the executable path. -/
theorem C9_tempdir_cleanup (env : CompileEnv) :
    ((compileCode env).result.success = false → (compileCode env).tempDirRemains = false) ∧
    ((compileCode env).result.success = true →
      (compileCode env).tempDirRemains = true ∧
      (compileCode env).result.executablePath.isSome = true ∧
      (compileCode env).result.tempDir.isSome = true) := by
  simp only [compileCode]
  split
  · simp
  · split
    · simp
    · split
      · simp
      · split <;> simp

/-- Claim C9 witness: the theorem at a failing input (compiler writes an
error and exits 1) and at a succeeding input. -/
theorem C9_witness :
    (compileCode ⟨true, .ok, .closes [.err "x"] 5 (some 1), false,
        "/tmp/cpp-ide-a", ""⟩).tempDirRemains = false ∧
    (compileCode ⟨true, .ok, .closes [] 5 (some 0), true,
        "/tmp/cpp-ide-b", ".exe"⟩).tempDirRemains = true := by
  exact ⟨(C9_tempdir_cleanup ⟨true, .ok, .closes [.err "x"] 5 (some 1), false,
            "/tmp/cpp-ide-a", ""⟩).1 (by decide),
         ((C9_tempdir_cleanup ⟨true, .ok, .closes [] 5 (some 0), true,
            "/tmp/cpp-ide-b", ".exe"⟩).2 (by decide)).1⟩

/-! ## Claim C7 -/

/-- Claim C7: compilation and execution are retry-free — for every call the
compiler process is spawned at most once and the produced executable is run
at most once, and when the compile phase fails `compileAndRun` returns the
failure immediately, running the program zero times and surfacing the
compile error. -/
theorem C7_retry_free (env : CompileEnv) (runExec : ProcExec) :
    (compileCode env).compilerRuns ≤ 1 ∧
    (compileAndRun env runExec).compilerRuns ≤ 1 ∧
    (compileAndRun env runExec).programRuns ≤ 1 ∧
    ((compileCode env).result.success = false →
      (compileAndRun env runExec).programRuns = 0 ∧
      (compileAndRun env runExec).result.success = false ∧
      (compileAndRun env runExec).result.output = "" ∧
      (compileAndRun env runExec).result.error =
        jsOr ((compileCode env).result.error.getD "") "Compilation failed") := by
  refine ⟨compileCode_runs_le_one env, ?_, ?_, ?_⟩
  · simp only [compileAndRun]
    split <;> simpa using compileCode_runs_le_one env
  · simp only [compileAndRun]
    split <;> simp
  · intro h
    simp [compileAndRun, h]

/-- Claim C7 witness: the theorem at a compile-failure input. -/
theorem C7_witness :
    (compileAndRun ⟨false, .ok, .closes [] 1 (some 0), true, "/tmp/cpp-ide-c", ""⟩
      (.closes [.out "y"] 1 (some 0))).programRuns = 0 := by
  exact ((C7_retry_free ⟨false, .ok, .closes [] 1 (some 0), true, "/tmp/cpp-ide-c", ""⟩
    (.closes [.out "y"] 1 (some 0))).2.2.2 (by decide)).1

/-! ## Claim C1 -/

/-- Claim C1 counterexample: a compilation that fails with stderr `boom`
surfaces the error `🔧 Compilation Error:\n\nboom`, not the raw stderr text
`boom` — a prefix is added, so the stderr is not passed through
unmodified. -/
theorem C1_counterexample :
    (compileCode ⟨true, .ok, .closes [.err "boom"] 5 (some 1), false,
        "/tmp/cpp-ide-d", ""⟩).result.error =
      some ("🔧 Compilation Error:\n\nboom") ∧
    (compileCode ⟨true, .ok, .closes [.err "boom"] 5 (some 1), false,
        "/tmp/cpp-ide-d", ""⟩).result.error ≠ some "boom" := by
  decide

/-- Claim C1 (amended): for a failed compilation whose stderr is non-empty
the surfaced error is the raw stderr text behind the fixed prefix
`🔧 Compilation Error:\n\n`, and for a program run with non-empty stderr
the surfaced error is the raw stderr text behind the fixed prefix
`⚠️ Runtime Error:\n\n`; (when the compile stderr is empty its stdout is
substituted, and when a failing run emitted nothing on either stream a
generic exit-code message is substituted). -/
theorem C1_prefixed_stderr :
    (∀ (env : CompileEnv) (chunks : List ProcEvent) (d : Nat) (code : Option Int),
      env.compilerFound = true → env.setup = .ok →
      env.compileExec = .closes chunks d code → d ≤ 30000 → code ≠ some 0 →
      joinAll (errChunks chunks) ≠ "" →
      (compileCode env).result.error =
        some ("🔧 Compilation Error:\n\n" ++ joinAll (errChunks chunks))) ∧
    (∀ (env : CompileEnv) (runExec : ProcExec) (chunks : List ProcEvent) (d : Nat)
        (code : Option Int),
      (compileCode env).result.success = true → runExec = .closes chunks d code →
      joinAll (errChunks chunks) ≠ "" →
      (compileAndRun env runExec).result.error =
        "⚠️ Runtime Error:\n\n" ++ joinAll (errChunks chunks)) := by
  constructor
  · intro env chunks d code h1 h2 h3 h4 h5 h6
    simp only [compileCode, h1, h2, h3, runCompilationProcess, accumulate_spec]
    rw [if_pos h4]
    simp [h5, jsOr, h6]
  · intro env runExec chunks d code hs hr h6
    obtain ⟨hp, ht⟩ := compileCode_success_fields env hs
    simp only [compileAndRun, hs, hp, ht, hr, startInteractiveProcess, accumulate_spec]
    simp [h6]

/-- Claim C1 witness: the amended theorem at concrete failing inputs. -/
theorem C1_witness :
    (compileCode ⟨true, .ok, .closes [.err "E"] 1 (some 1), false,
        "/tmp/cpp-ide-e", ""⟩).result.error = some ("🔧 Compilation Error:\n\nE") ∧
    (compileAndRun ⟨true, .ok, .closes [] 1 (some 0), true, "/tmp/cpp-ide-f", ""⟩
        (.closes [.err "R"] 1 (some 0))).result.error = "⚠️ Runtime Error:\n\nR" := by
  constructor
  · have h := C1_prefixed_stderr.1
      ⟨true, .ok, .closes [.err "E"] 1 (some 1), false, "/tmp/cpp-ide-e", ""⟩
      [.err "E"] 1 (some 1) rfl rfl rfl (by decide) (by decide) (by decide)
    simpa [errChunks, joinAll] using h
  · have h := C1_prefixed_stderr.2
      ⟨true, .ok, .closes [] 1 (some 0), true, "/tmp/cpp-ide-f", ""⟩
      (.closes [.err "R"] 1 (some 0)) [.err "R"] 1 (some 0) (by decide) rfl (by decide)
    simpa [errChunks, joinAll] using h

/-! ## Claim C8 -/

theorem runProcess_timedOut_success (e : ProcExec) (t : Nat) :
    (runProcess e t).timedOut = true → (runProcess e t).success = false := by
  cases e <;> simp only [runProcess] <;> first
    | (split <;> simp)
    | simp

/-- Claim C8 counterexample: in the legacy `compileAndRun` a program that
prints `x` and is then killed by the 10-second timer is reported
unsuccessful, although its captured stdout is non-empty — refuting the
claimed `success ↔ (exit code 0 ∨ stdout non-empty)` equivalence. -/
theorem C8_counterexample :
    (compileAndRunLegacy ⟨true, .closes [] 1 (some 0), true⟩
        (.closes [.out "x"] 20000 (some 0))).success = false ∧
    (runProcess (.closes [.out "x"] 20000 (some 0)) 10000).stdout = "x" ∧
    ¬((compileAndRunLegacy ⟨true, .closes [] 1 (some 0), true⟩
        (.closes [.out "x"] 20000 (some 0))).success = true ↔
      ((runProcess (.closes [.out "x"] 20000 (some 0)) 10000).exitCode = some 0 ∨
       (runProcess (.closes [.out "x"] 20000 (some 0)) 10000).stdout ≠ "")) := by
  decide

/-- Claim C8 (amended): the current `compileAndRun` reports success true
iff the exit code delivered to the exit callback is 0 (the natural exit
code, a `null` code coerced to 0, a spawn error to 1) or the captured
stdout is non-empty — so a program that prints output and exits non-zero
is still successful; the legacy `compileAndRun` reports success true iff
the run did not time out and (its exit code is 0 or its stdout is
non-empty). -/
theorem C8_success_condition :
    (∀ (env : CompileEnv) (runExec : ProcExec),
      (compileCode env).result.success = true →
      ((compileAndRun env runExec).result.success = true ↔
        ((startInteractiveProcess runExec).exitCode = 0 ∨
         (startInteractiveProcess runExec).stdout ≠ ""))) ∧
    (∀ (env : LegacyEnv) (runExec : ProcExec),
      env.compilerFound = true → (runProcess env.compileExec 30000).success = true →
      env.exeCreated = true →
      ((compileAndRunLegacy env runExec).success = true ↔
        ((runProcess runExec 10000).timedOut = false ∧
         ((runProcess runExec 10000).exitCode = some 0 ∨
          (runProcess runExec 10000).stdout ≠ "")))) := by
  constructor
  · intro env runExec hs
    obtain ⟨hp, ht⟩ := compileCode_success_fields env hs
    simp only [compileAndRun, hs, hp, ht]
    simp
  · intro env runExec h1 h2 h3
    simp only [compileAndRunLegacy, h1, h2, h3]
    rw [if_neg (by simp), if_neg (by simp), if_neg (by simp)]
    by_cases hc : (runProcess runExec 10000).success = false ∧
        (runProcess runExec 10000).timedOut = true
    · rw [if_pos hc]
      simp [hc.2]
    · rw [if_neg hc]
      have hto : (runProcess runExec 10000).timedOut = false := by
        cases h : (runProcess runExec 10000).timedOut
        · rfl
        · exact absurd ⟨runProcess_timedOut_success runExec 10000 h, h⟩ hc
      simp [hto]

/-- Claim C8 witness: the amended theorem at concrete inputs — a program
that prints `x` then exits with code 3 is reported successful in both
implementations. -/
theorem C8_witness :
    (compileAndRun ⟨true, .ok, .closes [] 1 (some 0), true, "/tmp/cpp-ide-g", ""⟩
        (.closes [.out "x"] 1 (some 3))).result.success = true ∧
    (compileAndRunLegacy ⟨true, .closes [] 1 (some 0), true⟩
        (.closes [.out "x"] 1 (some 3))).success = true := by
  constructor
  · exact (C8_success_condition.1 ⟨true, .ok, .closes [] 1 (some 0), true,
      "/tmp/cpp-ide-g", ""⟩ (.closes [.out "x"] 1 (some 3)) (by decide)).2 (by decide)
  · exact (C8_success_condition.2 ⟨true, .closes [] 1 (some 0), true⟩
      (.closes [.out "x"] 1 (some 3)) rfl (by decide) rfl).2 (by decide)

/-! ## Claim C4 -/

/-- Claim C4 counterexample: a user program started by the current
`compileAndRun` that keeps running for an hour (3600000 ms, far past the
claimed 10-second bound) is never killed — no timer exists on the
interactive runner — and is reported as a normal success, not as timed
out and unsuccessful. -/
theorem C4_counterexample :
    (compileAndRun ⟨true, .ok, .closes [] 5 (some 0), true, "/tmp/cpp-ide-h", ""⟩
        (.closes [.out "hi"] 3600000 (some 0))).result =
      { success := true, output := "hi", error := "" } ∧
    interactiveKilledByTimer (.closes [.out "hi"] 3600000 (some 0)) = false := by
  decide

/-- Claim C4 (amended): the compile step kills the compiler process if it
has not closed within 30000 ms (the close then carries a `null` code and
the compilation is reported failed); the legacy run step kills the user
program after its 10000 ms timeout and reports the run as timed out and
unsuccessful with the captured stdout; but the interactive runner used by
the current `compileAndRun` arms no timeout at all — a user program started
there is never killed by a timer and always runs to its natural exit. -/
theorem C4_timeout_bounds :
    (∀ (chunks : List ProcEvent) (d : Nat) (code : Option Int) (t : Nat), t < d →
      killedByTimer (.closes chunks d code) t = true ∧
      (runCompilationProcess (.closes chunks d code) t).success = false ∧
      (runCompilationProcess (.closes chunks d code) t).exitCode = none) ∧
    (∀ (env : CompileEnv) (chunks : List ProcEvent) (d : Nat) (code : Option Int),
      env.compilerFound = true → env.setup = .ok →
      env.compileExec = .closes chunks d code → 30000 < d →
      (compileCode env).result.success = false) ∧
    (∀ (env : LegacyEnv) (runExec : ProcExec) (chunks : List ProcEvent) (d : Nat)
        (code : Option Int),
      env.compilerFound = true → (runProcess env.compileExec 30000).success = true →
      env.exeCreated = true → runExec = .closes chunks d code → 10000 < d →
      (compileAndRunLegacy env runExec).success = false ∧
      (compileAndRunLegacy env runExec).error = timeoutMsg ∧
      (compileAndRunLegacy env runExec).output = joinAll (outChunks chunks)) ∧
    (∀ e : ProcExec, interactiveKilledByTimer e = false) ∧
    (∀ (chunks : List ProcEvent) (d : Nat) (code : Option Int),
      (startInteractiveProcess (.closes chunks d code)).exitCode = code.getD 0) := by
  refine ⟨?_, ?_, ?_, fun _ => rfl, fun _ _ _ => rfl⟩
  · intro chunks d code t h
    have hnot : ¬d ≤ t := by omega
    refine ⟨?_, ?_, ?_⟩ <;> simp [killedByTimer, runCompilationProcess, hnot, h]
  · intro env chunks d code h1 h2 h3 h4
    have hnot : ¬d ≤ 30000 := by omega
    simp only [compileCode, h1, h2, h3, runCompilationProcess]
    rw [if_neg hnot]
    simp
  · intro env runExec chunks d code h1 h2 h3 hr h4
    have hnot : ¬d ≤ 10000 := by omega
    simp only [compileAndRunLegacy, h1, h2, h3, hr]
    rw [if_neg (by simp), if_neg (by simp), if_neg (by simp)]
    simp only [runProcess, accumulate_spec]
    rw [if_neg hnot]
    simp

/-- Claim C4 witness: the amended theorem at concrete inputs — a compiler
run lasting 40000 ms is killed and reported failed, and an hour-long legacy
run is reported timed out and unsuccessful. -/
theorem C4_witness :
    (compileCode ⟨true, .ok, .closes [] 40000 (some 0), true,
        "/tmp/cpp-ide-i", ""⟩).result.success = false ∧
    (compileAndRunLegacy ⟨true, .closes [] 1 (some 0), true⟩
        (.closes [] 3600000 (some 0))).error = timeoutMsg := by
  constructor
  · exact C4_timeout_bounds.2.1 ⟨true, .ok, .closes [] 40000 (some 0), true,
      "/tmp/cpp-ide-i", ""⟩ [] 40000 (some 0) rfl rfl rfl (by omega)
  · exact (C4_timeout_bounds.2.2.1 ⟨true, .closes [] 1 (some 0), true⟩
      (.closes [] 3600000 (some 0)) [] 3600000 (some 0) rfl (by decide) rfl rfl
      (by omega)).2.1

/-! ## Claim C10 -/

theorem filter_ne_length (tabs : List FileTab) (tabId : String)
    (hnodup : (tabs.map FileTab.id).Nodup) (hmem : tabId ∈ tabs.map FileTab.id) :
    (tabs.filter (fun t => !(t.id == tabId))).length + 1 = tabs.length := by
  induction tabs with
  | nil => simp at hmem
  | cons t ts ih =>
    simp only [List.map_cons, List.nodup_cons, List.mem_cons] at hnodup hmem
    by_cases h : t.id = tabId
    · have hni : tabId ∉ ts.map FileTab.id := h ▸ hnodup.1
      have hkeep : ts.filter (fun a => !(a.id == tabId)) = ts := by
        apply List.filter_eq_self.mpr
        intro a ha
        simp only [Bool.not_eq_eq_eq_not, Bool.not_true, beq_eq_false_iff_ne, ne_eq]
        intro heq
        exact hni (List.mem_map.mpr ⟨a, ha, heq⟩)
      simp [List.filter_cons, h, hkeep]
    · have hmem2 : tabId ∈ ts.map FileTab.id := by
        rcases hmem with h1 | h1
        · exact absurd h1.symm h
        · exact h1
      have hlen := ih hnodup.2 hmem2
      simp only [List.filter_cons]
      have : (t.id == tabId) = false := by simp [h]
      simp [this]
      omega

/-- Claim C10: for every tab list with distinct ids containing the given
id, `closeTab` removes exactly the tab with that id; if that tab was active
and other tabs remain, the new active tab is the remaining tab at index
`min(closedIndex, remaining length - 1)` (with `closedIndex` the closed
tab's index in the original list); if no tabs remain the active id becomes
`null`; and closing a non-active tab leaves the active id unchanged. -/
theorem C10_closeTab (tabs : List FileTab) (activeTabId : Option String) (tabId : String)
    (hnodup : (tabs.map FileTab.id).Nodup) (hmem : tabId ∈ tabs.map FileTab.id) :
    ((closeTab tabs activeTabId tabId).1 = tabs.filter (fun t => !(t.id == tabId)) ∧
     (closeTab tabs activeTabId tabId).1.length + 1 = tabs.length) ∧
    (∀ t ∈ tabs, t.id ≠ tabId → t ∈ (closeTab tabs activeTabId tabId).1) ∧
    (∀ t ∈ (closeTab tabs activeTabId tabId).1, t ∈ tabs ∧ t.id ≠ tabId) ∧
    (activeTabId = some tabId → 0 < (closeTab tabs activeTabId tabId).1.length →
      ∃ ht : min (tabs.findIdx (fun t => t.id == tabId))
               ((closeTab tabs activeTabId tabId).1.length - 1) <
               (closeTab tabs activeTabId tabId).1.length,
        (closeTab tabs activeTabId tabId).2 =
          some (((closeTab tabs activeTabId tabId).1).get
            ⟨min (tabs.findIdx (fun t => t.id == tabId))
               ((closeTab tabs activeTabId tabId).1.length - 1), ht⟩).id) ∧
    (activeTabId = some tabId → (closeTab tabs activeTabId tabId).1.length = 0 →
      (closeTab tabs activeTabId tabId).2 = none) ∧
    (activeTabId ≠ some tabId → (closeTab tabs activeTabId tabId).2 = activeTabId) := by
  have hfst : (closeTab tabs activeTabId tabId).1 =
      tabs.filter (fun t => !(t.id == tabId)) := by
    simp only [closeTab]
    split
    · split <;> rfl
    · rfl
  have hlen : (closeTab tabs activeTabId tabId).1.length + 1 = tabs.length := by
    rw [hfst]; exact filter_ne_length tabs tabId hnodup hmem
  refine ⟨⟨hfst, hlen⟩, ?_, ?_, ?_, ?_, ?_⟩
  · intro t htm hne
    rw [hfst]
    exact List.mem_filter.mpr ⟨htm, by simp [hne]⟩
  · intro t htm
    rw [hfst] at htm
    have := List.mem_filter.mp htm
    refine ⟨this.1, ?_⟩
    have h2 := this.2
    simpa using h2
  · intro hact hpos
    have hlt : min (tabs.findIdx (fun t => t.id == tabId))
        ((closeTab tabs activeTabId tabId).1.length - 1) <
        (closeTab tabs activeTabId tabId).1.length := by
      have : (closeTab tabs activeTabId tabId).1.length - 1 <
          (closeTab tabs activeTabId tabId).1.length := by omega
      exact lt_of_le_of_lt (min_le_right _ _) this
    refine ⟨hlt, ?_⟩
    have hgoal : (closeTab tabs activeTabId tabId).2 =
        ((closeTab tabs activeTabId tabId).1[min (tabs.findIdx (fun t => t.id == tabId))
          ((closeTab tabs activeTabId tabId).1.length - 1)]?).map FileTab.id := by
      conv_lhs => rw [closeTab]
      rw [if_pos hact]
      rw [if_pos (by rw [hfst] at hpos; exact hpos)]
      simp only []
      congr 1
      rw [hfst]
    rw [hgoal, List.getElem?_eq_getElem hlt]
    simp [List.get_eq_getElem]
  · intro hact hzero
    simp only [closeTab, if_pos hact]
    rw [if_neg (by rw [hfst] at hzero; omega)]
  · intro hact
    simp only [closeTab, if_neg hact]

/-- Claim C10 witness: closing the active middle tab of three moves the
active tab to the remaining tab at the closed index. -/
theorem C10_witness :
    (closeTab [⟨"a", "a.cpp", none, "", false⟩, ⟨"b", "b.cpp", none, "", false⟩,
        ⟨"c", "c.cpp", none, "", false⟩] (some "b") "b").1.length + 1 = 3 ∧
    (closeTab [⟨"a", "a.cpp", none, "", false⟩, ⟨"b", "b.cpp", none, "", false⟩,
        ⟨"c", "c.cpp", none, "", false⟩] (some "b") "b").2 = some "c" := by
  have h := C10_closeTab [⟨"a", "a.cpp", none, "", false⟩, ⟨"b", "b.cpp", none, "", false⟩,
    ⟨"c", "c.cpp", none, "", false⟩] (some "b") "b" (by decide) (by decide)
  refine ⟨h.1.2, ?_⟩
  obtain ⟨ht, h2⟩ := h.2.2.2.1 rfl (by decide)
  rw [h2]
  rfl

/-! ## Claim C5: parser lemmas -/

theorem stripLit_self_append (p r : List Char) : stripLit p (p ++ r) = some r := by
  induction p with
  | nil => rfl
  | cons c cs ih => simp [stripLit, ih]

theorem stripLit_eq_some (p : List Char) :
    ∀ cs r, stripLit p cs = some r → cs = p ++ r := by
  induction p with
  | nil =>
    intro cs r h
    simpa [stripLit] using h
  | cons c cs ih =>
    intro ds r h
    cases ds with
    | nil => simp [stripLit] at h
    | cons d ds2 =>
      simp only [stripLit] at h
      split at h
      · rename_i hd
        subst hd
        simpa using ih ds2 r h
      · exact absurd h (by simp)

theorem readField_no_quote (xs : List Char) :
    ∀ ys, (∀ c ∈ xs, c ≠ '"') → readField (xs ++ '"' :: ys) = (xs, '"' :: ys) := by
  induction xs with
  | nil => intro ys _; simp [readField]
  | cons c cs ih =>
    intro ys h
    have hc : c ≠ '"' := h c (by simp)
    have ih2 := ih ys (fun a ha => h a (List.mem_cons_of_mem c ha))
    rw [List.cons_append]
    simp only [readField, if_neg hc]
    simp only [ih2]

theorem readField_split (cs : List Char) : cs = (readField cs).1 ++ (readField cs).2 := by
  induction cs with
  | nil => rfl
  | cons c cs2 ih =>
    simp only [readField]
    split
    · rfl
    · simpa using ih

theorem readField_snd_le (cs : List Char) : (readField cs).2.length ≤ cs.length := by
  conv_rhs => rw [readField_split cs]
  simp

theorem stripLit_some_le (p cs r : List Char) (h : stripLit p cs = some r) :
    r.length ≤ cs.length := by
  rw [stripLit_eq_some p cs r h]
  simp

theorem stripLit_some_lt (p cs r : List Char) (hp : p ≠ []) (h : stripLit p cs = some r) :
    r.length < cs.length := by
  rw [stripLit_eq_some p cs r h]
  cases p with
  | nil => exact absurd rfl hp
  | cons a b => simp; omega

theorem string_eta (s : String) : String.mk s.data = s := rfl

theorem stripLit_nameOpen (X : List Char) :
    stripLit ['\x7b', 'n', 'a', 'm', 'e', '=', '"']
      ('\x7b' :: 'n' :: 'a' :: 'm' :: 'e' :: '=' :: '"' :: X) = some X := by
  simp [stripLit]

theorem stripLit_valueSep (X : List Char) :
    stripLit ['"', ',', 'v', 'a', 'l', 'u', 'e', '=', '"']
      ('"' :: ',' :: 'v' :: 'a' :: 'l' :: 'u' :: 'e' :: '=' :: '"' :: X) = some X := by
  simp [stripLit]

theorem stripLit_typeSep (X : List Char) :
    stripLit ['"', ',', 't', 'y', 'p', 'e', '=', '"']
      ('"' :: ',' :: 't' :: 'y' :: 'p' :: 'e' :: '=' :: '"' :: X) = some X := by
  simp [stripLit]

theorem stripLit_typeSep_mismatch (X : List Char) :
    stripLit ['"', ',', 't', 'y', 'p', 'e', '=', '"'] ('"' :: '\x7d' :: X) = none := by
  simp [stripLit]

theorem stripLit_close (X : List Char) :
    stripLit ['"', '\x7d'] ('"' :: '\x7d' :: X) = some X := by
  simp [stripLit]

theorem matchVar_entry (e : LocalEntry) (he : entryOk e) (rest : List Char) :
    matchVar (entryChars e ++ rest) = some (entryVar e, rest) := by
  obtain ⟨hn, hnq, hvq, htq⟩ := he
  have hname : ∀ c ∈ e.name.data, c ≠ '"' := fun c hc => (hnq c hc).1
  have hvalue : ∀ c ∈ e.value.data, c ≠ '"' := fun c hc => (hvq c hc).1
  cases hv : e.vtype with
  | none =>
    simp only [matchVar, entryChars, hv, nameOpenL, valueSepL, closeL, typeSepL,
      List.cons_append, List.append_assoc, List.nil_append, stripLit_nameOpen,
      readField_no_quote e.name.data _ hname, hn, readField_no_quote e.value.data _ hvalue,
      stripLit_valueSep, stripLit_typeSep_mismatch, stripLit_close, if_neg,
      entryVar, Option.getD, string_eta]
    simp [hn]
  | some t =>
    have ht := htq t (by simp [hv])
    have htname : ∀ c ∈ t.data, c ≠ '"' := fun c hc => (ht.2 c hc).1
    simp only [matchVar, entryChars, hv, nameOpenL, valueSepL, closeL, typeSepL,
      List.cons_append, List.append_assoc, List.nil_append, stripLit_nameOpen,
      readField_no_quote e.name.data _ hname, hn, readField_no_quote e.value.data _ hvalue,
      readField_no_quote t.data _ htname, stripLit_valueSep, stripLit_typeSep,
      stripLit_close, jsOr, entryVar, Option.getD, string_eta]
    simp [hn, ht.1, string_eta]
    intro h2
    subst h2
    exact absurd rfl ht.1

theorem matchVar_length (cs : List Char) (v : Variable) (rest : List Char)
    (h : matchVar cs = some (v, rest)) : rest.length < cs.length := by
  simp only [matchVar] at h
  cases h1 : stripLit nameOpenL cs with
  | none => rw [h1] at h; simp at h
  | some cs1 =>
    rw [h1] at h
    have l1 : cs1.length < cs.length :=
      stripLit_some_lt _ _ _ (by simp [nameOpenL]) h1
    simp only at h
    by_cases hnil : (readField cs1).1 = []
    · rw [if_pos hnil] at h; simp at h
    · rw [if_neg hnil] at h
      have l2 : (readField cs1).2.length ≤ cs1.length := readField_snd_le cs1
      cases h2 : stripLit valueSepL (readField cs1).2 with
      | none => rw [h2] at h; simp at h
      | some cs3 =>
        rw [h2] at h
        have l3 : cs3.length < (readField cs1).2.length :=
          stripLit_some_lt _ _ _ (by simp [valueSepL]) h2
        simp only at h
        have l4 : (readField cs3).2.length ≤ cs3.length := readField_snd_le cs3
        cases h3 : stripLit typeSepL (readField cs3).2 with
        | some cs5 =>
          rw [h3] at h
          have l5 : cs5.length < (readField cs3).2.length :=
            stripLit_some_lt _ _ _ (by simp [typeSepL]) h3
          simp only at h
          have l6 : (readField cs5).2.length ≤ cs5.length := readField_snd_le cs5
          cases h4 : stripLit closeL (readField cs5).2 with
          | some cs7 =>
            rw [h4] at h
            have l7 : cs7.length < (readField cs5).2.length :=
              stripLit_some_lt _ _ _ (by simp [closeL]) h4
            simp only [Option.some.injEq, Prod.mk.injEq] at h
            obtain ⟨-, hrest⟩ := h
            subst hrest
            omega
          | none =>
            rw [h4] at h
            cases h5 : stripLit closeL (readField cs3).2 with
            | some cs5b =>
              rw [h5] at h
              have l7 : cs5b.length < (readField cs3).2.length :=
                stripLit_some_lt _ _ _ (by simp [closeL]) h5
              simp only [Option.some.injEq, Prod.mk.injEq] at h
              obtain ⟨-, hrest⟩ := h
              subst hrest
              omega
            | none => rw [h5] at h; simp at h
        | none =>
          rw [h3] at h
          cases h5 : stripLit closeL (readField cs3).2 with
          | some cs5b =>
            rw [h5] at h
            have l7 : cs5b.length < (readField cs3).2.length :=
              stripLit_some_lt _ _ _ (by simp [closeL]) h5
            simp only [Option.some.injEq, Prod.mk.injEq] at h
            obtain ⟨-, hrest⟩ := h
            subst hrest
            omega
          | none => rw [h5] at h; simp at h

theorem scanVarsFuel_succ (n : Nat) (cs : List Char) :
    scanVarsFuel (n + 1) cs =
      (match matchVar cs with
       | some (v, rest) => v :: scanVarsFuel n rest
       | none => match cs with
                 | [] => []
                 | _ :: cs2 => scanVarsFuel n cs2) := rfl

theorem scanVarsFuel_stable (n : Nat) :
    ∀ cs : List Char, cs.length ≤ n → scanVarsFuel n cs = scanVarsFuel (n + 1) cs := by
  induction n with
  | zero =>
    intro cs h
    have hnil : cs = [] := List.eq_nil_of_length_eq_zero (Nat.le_zero.mp h)
    subst hnil
    rfl
  | succ n ih =>
    intro cs h
    rw [scanVarsFuel_succ n cs, scanVarsFuel_succ (n + 1) cs]
    cases hm : matchVar cs with
    | some p =>
      cases p with
      | mk v rest =>
        have hlt := matchVar_length cs v rest hm
        show v :: scanVarsFuel n rest = v :: scanVarsFuel (n + 1) rest
        rw [ih rest (by omega)]
    | none =>
      cases cs with
      | nil => rfl
      | cons c cs2 =>
        simp only [List.length_cons] at h
        show scanVarsFuel n cs2 = scanVarsFuel (n + 1) cs2
        exact ih cs2 (by omega)

theorem scanVarsFuel_eq_scanVars (n : Nat) (cs : List Char) (h : cs.length ≤ n) :
    scanVarsFuel n cs = scanVars cs := by
  induction n with
  | zero =>
    have hnil : cs = [] := List.eq_nil_of_length_eq_zero (Nat.le_zero.mp h)
    subst hnil
    rfl
  | succ n ih =>
    by_cases h2 : cs.length ≤ n
    · rw [← scanVarsFuel_stable n cs h2, ih h2]
    · have hexact : cs.length = n + 1 := by omega
      rw [scanVars, hexact]

theorem scanVars_cons_entry (e : LocalEntry) (he : entryOk e) (cs : List Char) :
    scanVars (entryChars e ++ cs) = entryVar e :: scanVars cs := by
  have hm := matchVar_entry e he cs
  have hlen : (entryChars e ++ cs).length = (entryChars e).length + cs.length := by simp
  have hpos : 1 ≤ (entryChars e).length := by
    simp only [entryChars, nameOpenL, List.length_append, List.length_cons]
    omega
  obtain ⟨m, hm2⟩ : ∃ m, (entryChars e ++ cs).length = m + 1 :=
    ⟨(entryChars e ++ cs).length - 1, by omega⟩
  rw [scanVars, hm2]
  simp only [scanVarsFuel, hm]
  congr 1
  exact scanVarsFuel_eq_scanVars m cs (by omega)

theorem scanVars_comma (cs : List Char) : scanVars (',' :: cs) = scanVars cs := rfl

theorem scanVars_joinComma (entries : List LocalEntry) :
    (∀ e ∈ entries, entryOk e) → scanVars (bodyChars entries) = entries.map entryVar := by
  induction entries with
  | nil => intro _; rfl
  | cons e rest ih =>
    intro h
    cases rest with
    | nil =>
      have h1 := scanVars_cons_entry e (h e (by simp)) []
      simpa [bodyChars, joinComma] using h1
    | cons e2 rest2 =>
      have h1 : bodyChars (e :: e2 :: rest2) =
          entryChars e ++ ',' :: bodyChars (e2 :: rest2) := by
        simp [bodyChars, joinComma]
      rw [h1, scanVars_cons_entry e (h e (by simp)) _, scanVars_comma]
      rw [ih (fun x hx => h x (by simp [hx]))]
      simp

theorem take_to_dropLast (A B T : List Char) :
    (A ++ (B ++ T)).take (A.length + B.length - 1) = (A ++ B).dropLast := by
  rw [List.dropLast_eq_take, ← List.append_assoc, List.take_append_eq_append_take]
  have h0 : A.length + B.length - 1 - (A ++ B).length = 0 := by
    simp [List.length_append]
  rw [h0, List.take_zero, List.append_nil, List.length_append]

theorem stripLit_take (p r L : List Char) (n : Nat) (hlen : p.length ≤ n)
    (h : L = p ++ r) : stripLit p (L.take n) = some (r.take (n - p.length)) := by
  subst h
  rw [List.take_append_eq_append_take, List.take_of_length_le hlen]
  exact stripLit_self_append ..

theorem findLit_boundary (p0 : Char) (ps : List Char) :
    ∀ (pre tail : List Char),
      hasLit (p0 :: ps) ((pre ++ (p0 :: ps)).dropLast) = false →
      findLit (p0 :: ps) (pre ++ ((p0 :: ps) ++ tail)) = some tail := by
  intro pre
  induction pre with
  | nil =>
    intro tail _
    simp only [List.nil_append, List.cons_append, findLit, List.append_eq]
    have hs : stripLit (p0 :: ps) (p0 :: (ps ++ tail)) = some tail := by
      have h := stripLit_self_append (p0 :: ps) tail
      simpa using h
    simp only [hs]
  | cons c pre2 ih =>
    intro tail hno
    rw [List.cons_append, List.dropLast_cons_of_ne_nil (by simp)] at hno
    simp only [hasLit, Bool.or_eq_false_iff] at hno
    obtain ⟨hh, htl⟩ := hno
    rw [List.cons_append]
    simp only [findLit, List.append_eq]
    have hnone : stripLit (p0 :: ps) (c :: (pre2 ++ ((p0 :: ps) ++ tail))) = none := by
      cases hv : stripLit (p0 :: ps) (c :: (pre2 ++ ((p0 :: ps) ++ tail))) with
      | none => rfl
      | some r =>
        exfalso
        have heq := stripLit_eq_some _ _ _ hv
        have hS : (c :: (pre2 ++ ((p0 :: ps) ++ tail))).take (pre2.length + ps.length + 1) =
            c :: (pre2 ++ (p0 :: ps)).dropLast := by
          rw [List.take_succ_cons]
          have h1 := take_to_dropLast pre2 (p0 :: ps) tail
          simp only [List.length_cons] at h1
          have harith : pre2.length + (ps.length + 1) - 1 = pre2.length + ps.length := by
            omega
          rw [harith] at h1
          rw [h1]
        have hsome := stripLit_take (p0 :: ps) r (c :: (pre2 ++ ((p0 :: ps) ++ tail)))
          (pre2.length + ps.length + 1) (by simp) heq
        rw [hS] at hsome
        rw [hsome] at hh
        simp at hh
    simp only [hnone]
    exact ih tail htl

theorem upToChar_append (body post : List Char) (h : ∀ c ∈ body, c ≠ ']') :
    upToChar ']' (body ++ ']' :: post) = some body := by
  induction body with
  | nil => simp [upToChar]
  | cons c cs ih =>
    have hc : c ≠ ']' := h c (by simp)
    have ih2 := ih (fun a ha => h a (List.mem_cons_of_mem c ha))
    rw [List.cons_append]
    simp only [upToChar, if_neg hc, ih2]
    rfl

theorem entryChars_no_rbracket (e : LocalEntry) (he : entryOk e) :
    ∀ c ∈ entryChars e, c ≠ ']' := by
  obtain ⟨hn, hnq, hvq, htq⟩ := he
  have hlit1 : ∀ c ∈ nameOpenL, c ≠ ']' := by decide
  have hlit2 : ∀ c ∈ valueSepL, c ≠ ']' := by decide
  have hlit3 : ∀ c ∈ typeSepL, c ≠ ']' := by decide
  have hlit4 : ∀ c ∈ closeL, c ≠ ']' := by decide
  intro c hc
  simp only [entryChars, List.mem_append] at hc
  rcases hc with ((((h1 | h1) | h1) | h1)) | h1
  · exact hlit1 c h1
  · exact (hnq c h1).2
  · exact hlit2 c h1
  · exact (hvq c h1).2
  · cases hv : e.vtype with
    | none =>
      rw [hv] at h1
      exact hlit4 c h1
    | some t =>
      rw [hv] at h1
      simp only [List.mem_append] at h1
      rcases h1 with (h2 | h2) | h2
      · exact hlit3 c h2
      · exact ((htq t (by simp [hv])).2 c h2).2
      · exact hlit4 c h2

theorem bodyChars_no_rbracket (entries : List LocalEntry)
    (h : ∀ e ∈ entries, entryOk e) : ∀ c ∈ bodyChars entries, c ≠ ']' := by
  induction entries with
  | nil => intro c hc; simp [bodyChars, joinComma] at hc
  | cons e rest ih =>
    cases rest with
    | nil =>
      intro c hc
      simp only [bodyChars, List.map_cons, List.map_nil, joinComma] at hc
      exact entryChars_no_rbracket e (h e (by simp)) c hc
    | cons e2 r2 =>
      intro c hc
      have h1 : bodyChars (e :: e2 :: r2) =
          entryChars e ++ ',' :: bodyChars (e2 :: r2) := by
        simp [bodyChars, joinComma]
      rw [h1] at hc
      simp only [List.mem_append, List.mem_cons] at hc
      rcases hc with h2 | h2 | h2
      · exact entryChars_no_rbracket e (h e (by simp)) c h2
      · subst h2; decide
      · exact ih (fun x hx => h x (List.mem_cons_of_mem e hx)) c h2

/-- Claim C5: `getLocals` parses the debugger's machine-interface text with
the two regular expressions of the source: when no debugger process exists
or the status is not `stopped` it returns the empty list; and on a response
containing a `locals=[...]` list made of well-formed
`{name="…",value="…"}` / `{name="…",value="…",type="…"}` groups it returns
exactly one `Variable` per group, in textual order, with `name` and `value`
the captured fields and `type` the captured type or `unknown` when the type
field is absent.  Well-formed means: non-empty names, no `"` or `]` inside
the captured fields, non-empty type fields, and no earlier occurrence of
`locals=[` in the response prefix. -/
theorem C5_getLocals_parses :
    (∀ (hasP : Bool) (st : DebugStatus) (resp : String),
      ¬(hasP = true ∧ st = DebugStatus.stopped) → getLocals hasP st resp = []) ∧
    (∀ (entries : List LocalEntry) (pre post : List Char),
      (∀ e ∈ entries, entryOk e) →
      hasLit localsOpenL ((pre ++ localsOpenL).dropLast) = false →
      getLocals true DebugStatus.stopped
          ⟨pre ++ (localsOpenL ++ (bodyChars entries ++ ']' :: post))⟩ =
        entries.map entryVar) := by
  constructor
  · intro hasP st resp h
    simp [getLocals, h]
  · intro entries pre post hok hpre
    have hfind : findLit localsOpenL
        (pre ++ (localsOpenL ++ (bodyChars entries ++ ']' :: post))) =
        some (bodyChars entries ++ ']' :: post) :=
      findLit_boundary 'l' ['o', 'c', 'a', 'l', 's', '=', '['] pre
        (bodyChars entries ++ ']' :: post) hpre
    have hup := upToChar_append (bodyChars entries) post (bodyChars_no_rbracket entries hok)
    simp only [getLocals, parseLocalsResponse, eq_self_iff_true, and_self, if_true, hfind, hup]
    exact scanVars_joinComma entries hok

/-- Claim C5 witness: the theorem at a concrete non-stopped state and at a
concrete two-variable response (one group without a type field, one with
one). -/
theorem C5_witness :
    getLocals true DebugStatus.running "locals=[\x7bname=\"i\",value=\"42\"\x7d]" = [] ∧
    getLocals true DebugStatus.stopped
        ⟨"^done,".data ++ (localsOpenL ++
          (bodyChars [⟨"i", "42", none⟩, ⟨"s", "7", some "int"⟩] ++ ']' :: "\n(gdb)".data))⟩ =
      [⟨"i", "42", "unknown"⟩, ⟨"s", "7", "int"⟩] := by
  constructor
  · exact C5_getLocals_parses.1 true DebugStatus.running _ (by simp)
  · have h := C5_getLocals_parses.2 [⟨"i", "42", none⟩, ⟨"s", "7", some "int"⟩]
      "^done,".data "\n(gdb)".data (by decide) (by decide)
    rw [h]
    rfl

end CarbonCode
